import Mathlib

/-!
Shallow embedding of the COVID-19 Global Data Tracker notebook
(`src/COVID-19.ipynb`).

The notebook is a linear pandas pipeline over a table of per-(location, date)
observations.  We model the table as a `List Row`, nullable float columns as
`Option ℚ` (pandas `NaN` = `none`), and the derived-ratio columns — where IEEE
division by zero can produce infinities — with an explicit value type `FVal`
carrying `nan` / `inf` / `-inf` / finite rationals.

Pandas semantics embedded here, each taken from the library behaviour the
notebook relies on:
* `groupby('location').transform(ffill)` — per-location forward fill, leading
  nulls preserved (`fillMetricAux` / `cleanTable`);
* `rolling(7, min_periods=1).mean()` — trailing window of at most 7 entries,
  mean over the non-null entries only, null when the window holds no non-null
  entry (`rollingMean7`);
* `sort_values('date').groupby('location').last()` — per column, the LAST
  NON-NULL value of the date-sorted group, not the max-date row (`snapVal`);
* float division `a / b` — `b = 0` gives `nan` when `a = 0` and `±inf`
  otherwise; any `nan` operand propagates (`FVal.div`, `FVal.mul`);
* `pivot(index='date', columns='location')` — raises on duplicate
  (date, location) keys, otherwise a keyed table of cells (`pivot`);
* `sort_values(metric, ascending=False)` — descending order with nulls placed
  last (`rowLe`, `top5By`).
-/

/-- One row of the OWID CSV: one observation of one location on one date.
Nullable numeric columns are `Option ℚ`. -/
structure Row where
  location : String
  iso_code : String
  date : Nat
  total_cases : Option ℚ
  new_cases : Option ℚ
  total_deaths : Option ℚ
  new_deaths : Option ℚ
  total_vaccinations : Option ℚ
  people_vaccinated : Option ℚ
  people_fully_vaccinated : Option ℚ
  population : Option ℚ
deriving DecidableEq, Repr

/-- `countries_of_interest` from the notebook (section 3). -/
def countriesOfInterest : List String :=
  ["United States", "India", "Brazil", "United Kingdom", "Russia",
   "France", "Germany", "South Africa", "Kenya", "China"]

/-- `continents` from the notebook: aggregate pseudo-locations excluded from
country-level analysis. -/
def continents : List String :=
  ["World", "Asia", "Europe", "North America", "South America", "Africa", "Oceania",
   "European Union", "High income", "Upper middle income", "Lower middle income", "Low income"]

/-- The `key_metrics` list from the notebook: the seven forward-filled columns. -/
inductive Metric where
  | total_cases
  | new_cases
  | total_deaths
  | new_deaths
  | total_vaccinations
  | people_vaccinated
  | people_fully_vaccinated
deriving DecidableEq, Repr

/-- Column read for a key metric. -/
def Metric.get : Metric → Row → Option ℚ
  | .total_cases, r => r.total_cases
  | .new_cases, r => r.new_cases
  | .total_deaths, r => r.total_deaths
  | .new_deaths, r => r.new_deaths
  | .total_vaccinations, r => r.total_vaccinations
  | .people_vaccinated, r => r.people_vaccinated
  | .people_fully_vaccinated, r => r.people_fully_vaccinated

/-- Column write for a key metric. -/
def Metric.set : Metric → Row → Option ℚ → Row
  | .total_cases, r, v => { r with total_cases := v }
  | .new_cases, r, v => { r with new_cases := v }
  | .total_deaths, r, v => { r with total_deaths := v }
  | .new_deaths, r, v => { r with new_deaths := v }
  | .total_vaccinations, r, v => { r with total_vaccinations := v }
  | .people_vaccinated, r, v => { r with people_vaccinated := v }
  | .people_fully_vaccinated, r, v => { r with people_fully_vaccinated := v }

/-- The `key_metrics` iteration order of the cleaning loop. -/
def Metric.all : List Metric :=
  [.total_cases, .new_cases, .total_deaths, .new_deaths,
   .total_vaccinations, .people_vaccinated, .people_fully_vaccinated]

/-- `Series.fillna(method='ffill')` with the last seen non-null value as carry:
each entry becomes its own value when non-null, else the carry. -/
def ffillAux {α : Type} (carry : Option α) : List (Option α) → List (Option α)
  | [] => []
  | x :: xs => (x.or carry) :: ffillAux (x.or carry) xs

/-- Forward fill of one series, starting with no carry (leading nulls stay). -/
def ffill {α : Type} (xs : List (Option α)) : List (Option α) :=
  ffillAux none xs

/-- `groupby('location')[metric].transform(lambda x: x.fillna(method='ffill'))`:
one pass over the table keeping, per location, the last seen value of the
metric, writing it into null entries. -/
def fillMetricAux (m : Metric) (carry : String → Option ℚ) : List Row → List Row
  | [] => []
  | r :: rs =>
    let v := (m.get r).or (carry r.location)
    m.set r v :: fillMetricAux m (fun l => if l = r.location then v else carry l) rs

/-- Forward fill of one key metric over the whole table, grouped by location. -/
def fillMetric (m : Metric) (rows : List Row) : List Row :=
  fillMetricAux m (fun _ => none) rows

/-- The cleaning loop `for metric in key_metrics: ...` of the notebook:
forward-fills each of the seven key metrics per location. -/
def cleanTable (rows : List Row) : List Row :=
  Metric.all.foldl (fun t m => fillMetric m t) rows

/-- The sequence of values of metric `m` for location `L`, in table order
(chronological per location in the source data). -/
def locSeq (m : Metric) (L : String) (rows : List Row) : List (Option ℚ) :=
  (rows.filter (fun r => r.location = L)).map m.get

section FfillLemmas

theorem ffillAux_length {α : Type} (c : Option α) (xs : List (Option α)) :
    (ffillAux c xs).length = xs.length := by
  induction xs generalizing c with
  | nil => rfl
  | cons x xs ih => simp [ffillAux, ih]

theorem getLast?_filterMap_or {α : Type} (c x : Option α) (l : List (Option α)) :
    ((c :: x :: l).filterMap id).getLast? = (((x.or c) :: l).filterMap id).getLast? := by
  cases c with
  | none => cases x <;> simp [List.filterMap_cons]
  | some a =>
    cases x with
    | none => simp [List.filterMap_cons]
    | some b => simp [List.filterMap_cons, List.getLast?_cons_cons]

theorem ffillAux_getElem? {α : Type} (c : Option α) (xs : List (Option α)) (i : Nat)
    (h : i < xs.length) :
    (ffillAux c xs)[i]? = some (((c :: xs.take (i + 1)).filterMap id).getLast?) := by
  induction xs generalizing c i with
  | nil => simp at h
  | cons x xs ih =>
    cases i with
    | zero =>
      simp only [ffillAux, List.getElem?_cons_zero, List.take_succ_cons, List.take_zero]
      cases c <;> cases x <;> simp [List.filterMap_cons, Option.or]
    | succ i =>
      simp only [ffillAux, List.getElem?_cons_succ, List.take_succ_cons]
      rw [ih (x.or c) i (by simpa using h)]
      rw [getLast?_filterMap_or]

theorem ffill_getElem? {α : Type} (xs : List (Option α)) (i : Nat) (h : i < xs.length) :
    (ffill xs)[i]? = some (((xs.take (i + 1)).filterMap id).getLast?) := by
  rw [ffill, ffillAux_getElem? none xs i h]
  simp [List.filterMap_cons]

end FfillLemmas

section MetricLemmas

theorem Metric.get_set_same (m : Metric) (r : Row) (v : Option ℚ) :
    m.get (m.set r v) = v := by
  cases m <;> rfl

theorem Metric.get_set_ne (m m' : Metric) (hne : m' ≠ m) (r : Row) (v : Option ℚ) :
    m'.get (m.set r v) = m'.get r := by
  cases m <;> cases m' <;> first | rfl | exact absurd rfl hne

theorem Metric.location_set (m : Metric) (r : Row) (v : Option ℚ) :
    (m.set r v).location = r.location := by
  cases m <;> rfl

theorem Metric.iso_code_set (m : Metric) (r : Row) (v : Option ℚ) :
    (m.set r v).iso_code = r.iso_code := by
  cases m <;> rfl

theorem Metric.date_set (m : Metric) (r : Row) (v : Option ℚ) :
    (m.set r v).date = r.date := by
  cases m <;> rfl

theorem Metric.population_set (m : Metric) (r : Row) (v : Option ℚ) :
    (m.set r v).population = r.population := by
  cases m <;> rfl

theorem Metric.mem_all (m : Metric) : m ∈ Metric.all := by
  cases m <;> simp [Metric.all]

theorem Metric.all_nodup : Metric.all.Nodup := by decide

end MetricLemmas


section CleanTableLemmas

/-- Projecting the filled table onto a location's metric column is the forward
fill of the original projection, seeded with that location's carried value. -/
theorem fillMetricAux_locSeq (m : Metric) (c : String → Option ℚ) (rows : List Row)
    (L : String) :
    ((fillMetricAux m c rows).filter (fun r => r.location = L)).map m.get =
      ffillAux (c L) ((rows.filter (fun r => r.location = L)).map m.get) := by
  induction rows generalizing c with
  | nil => rfl
  | cons r rs ih =>
    by_cases hL : r.location = L
    · subst hL
      simp only [fillMetricAux]
      rw [List.filter_cons_of_pos (by simp [Metric.location_set]),
        List.filter_cons_of_pos (by simp)]
      simp only [List.map_cons, Metric.get_set_same, ffillAux]
      refine congrArg _ ?_
      rw [ih]
      simp
    · simp only [fillMetricAux]
      rw [List.filter_cons_of_neg (by simp [Metric.location_set, hL]),
        List.filter_cons_of_neg (by simp [hL]), ih]
      rw [if_neg (fun h : L = r.location => hL h.symm)]

/-- Filling one metric leaves every other metric's column unchanged. -/
theorem fillMetricAux_locSeq_ne (m m' : Metric) (hne : m' ≠ m) (c : String → Option ℚ)
    (rows : List Row) (L : String) :
    locSeq m' L (fillMetricAux m c rows) = locSeq m' L rows := by
  induction rows generalizing c with
  | nil => rfl
  | cons r rs ih =>
    by_cases hL : r.location = L
    · simp only [locSeq, fillMetricAux]
      rw [List.filter_cons_of_pos (by simp [Metric.location_set, hL]),
        List.filter_cons_of_pos (by simp [hL])]
      simp only [List.map_cons, Metric.get_set_ne m m' hne]
      refine congrArg _ ?_
      have := ih (fun l => if l = r.location then (m.get r).or (c r.location) else c l)
      simpa [locSeq] using this
    · simp only [locSeq, fillMetricAux]
      rw [List.filter_cons_of_neg (by simp [Metric.location_set, hL]),
        List.filter_cons_of_neg (by simp [hL])]
      have := ih (fun l => if l = r.location then (m.get r).or (c r.location) else c l)
      simpa [locSeq] using this

theorem fillMetric_locSeq_same (m : Metric) (rows : List Row) (L : String) :
    locSeq m L (fillMetric m rows) = ffill (locSeq m L rows) := by
  simpa [locSeq, fillMetric, ffill] using
    fillMetricAux_locSeq m (fun _ => none) rows L

theorem fillMetric_locSeq_ne (m m' : Metric) (hne : m' ≠ m) (rows : List Row) (L : String) :
    locSeq m' L (fillMetric m rows) = locSeq m' L rows :=
  fillMetricAux_locSeq_ne m m' hne (fun _ => none) rows L

/-- Metrics not filled in a suffix of the cleaning loop keep their column. -/
theorem foldl_fill_locSeq_not_mem (m : Metric) (ms : List Metric) (hm : m ∉ ms)
    (t : List Row) (L : String) :
    locSeq m L (ms.foldl (fun t m' => fillMetric m' t) t) = locSeq m L t := by
  induction ms generalizing t with
  | nil => rfl
  | cons m' ms ih =>
    simp only [List.foldl_cons]
    rw [ih (by simp at hm; exact hm.2) (fillMetric m' t),
      fillMetric_locSeq_ne m' m (by simp at hm; exact fun h => hm.1 h) t L]

theorem foldl_fill_locSeq_mem (m : Metric) (ms : List Metric) (hnd : ms.Nodup)
    (hm : m ∈ ms) (t : List Row) (L : String) :
    locSeq m L (ms.foldl (fun t m' => fillMetric m' t) t) = ffill (locSeq m L t) := by
  induction ms generalizing t with
  | nil => simp at hm
  | cons m' ms ih =>
    simp only [List.foldl_cons]
    by_cases he : m = m'
    · subst he
      rw [foldl_fill_locSeq_not_mem m ms (by simp at hnd; exact hnd.1) (fillMetric m t) L,
        fillMetric_locSeq_same]
    · have hm' : m ∈ ms := by
        rcases List.mem_cons.mp hm with h | h
        · exact absurd h he
        · exact h
      rw [ih (by simp at hnd; exact hnd.2) hm' (fillMetric m' t),
        fillMetric_locSeq_ne m' m he t L]

/-- The column of every key metric after cleaning is the per-location forward
fill of its original column. -/
theorem cleanTable_locSeq (m : Metric) (rows : List Row) (L : String) :
    locSeq m L (cleanTable rows) = ffill (locSeq m L rows) :=
  foldl_fill_locSeq_mem m Metric.all Metric.all_nodup (Metric.mem_all m) rows L

end CleanTableLemmas

section FrameLemmas

/-- Frame relation between an original row and its cleaned counterpart: all
non-key-metric columns are equal, and every originally non-null key-metric
entry is unchanged. -/
def FrameEq (r r' : Row) : Prop :=
  r'.location = r.location ∧ r'.iso_code = r.iso_code ∧ r'.date = r.date ∧
    r'.population = r.population ∧
    ∀ m : Metric, (m.get r).isSome = true → m.get r' = m.get r

theorem FrameEq.refl (r : Row) : FrameEq r r :=
  ⟨rfl, rfl, rfl, rfl, fun _ _ => rfl⟩

theorem FrameEq.trans {r₁ r₂ r₃ : Row} (h₁ : FrameEq r₁ r₂) (h₂ : FrameEq r₂ r₃) :
    FrameEq r₁ r₃ := by
  obtain ⟨a1, b1, c1, d1, e1⟩ := h₁
  obtain ⟨a2, b2, c2, d2, e2⟩ := h₂
  refine ⟨a2.trans a1, b2.trans b1, c2.trans c1, d2.trans d1, fun m hm => ?_⟩
  have h12 := e1 m hm
  have : (m.get r₂).isSome = true := by rw [h12]; exact hm
  rw [e2 m this, h12]

theorem FrameEq.fillStep (m : Metric) (r : Row) (c : Option ℚ) :
    FrameEq r (m.set r ((m.get r).or c)) := by
  refine ⟨Metric.location_set m r _, Metric.iso_code_set m r _, Metric.date_set m r _,
    Metric.population_set m r _, fun m' hm' => ?_⟩
  by_cases he : m' = m
  · subst he
    rw [Metric.get_set_same]
    obtain ⟨v, hv⟩ := Option.isSome_iff_exists.mp hm'
    rw [hv]
    rfl
  · exact Metric.get_set_ne m m' he r _

theorem fillMetricAux_length (m : Metric) (c : String → Option ℚ) (rows : List Row) :
    (fillMetricAux m c rows).length = rows.length := by
  induction rows generalizing c with
  | nil => rfl
  | cons r rs ih => simp [fillMetricAux, ih]

theorem fillMetricAux_frame (m : Metric) (c : String → Option ℚ) (rows : List Row)
    (i : Nat) (r : Row) (h : rows[i]? = some r) :
    ∃ r', (fillMetricAux m c rows)[i]? = some r' ∧ FrameEq r r' := by
  induction rows generalizing c i with
  | nil => simp at h
  | cons r₀ rs ih =>
    cases i with
    | zero =>
      simp only [List.getElem?_cons_zero, Option.some_inj] at h
      cases h
      exact ⟨m.set r ((m.get r).or (c r.location)), by simp [fillMetricAux], FrameEq.fillStep m r _⟩
    | succ i =>
      simp only [List.getElem?_cons_succ] at h
      simpa [fillMetricAux] using
        ih (fun l => if l = r₀.location then (m.get r₀).or (c r₀.location) else c l) i h

theorem foldl_fill_length (ms : List Metric) (t : List Row) :
    (ms.foldl (fun t m => fillMetric m t) t).length = t.length := by
  induction ms generalizing t with
  | nil => rfl
  | cons m ms ih =>
    simp only [List.foldl_cons]
    rw [ih (fillMetric m t)]
    exact fillMetricAux_length m _ t

theorem foldl_fill_frame (ms : List Metric) (t : List Row) (i : Nat) (r : Row)
    (h : t[i]? = some r) :
    ∃ r', (ms.foldl (fun t m => fillMetric m t) t)[i]? = some r' ∧ FrameEq r r' := by
  induction ms generalizing t r with
  | nil => exact ⟨r, h, FrameEq.refl r⟩
  | cons m ms ih =>
    obtain ⟨r₁, h₁, hf₁⟩ := fillMetricAux_frame m (fun _ => none) t i r h
    obtain ⟨r', h', hf'⟩ := ih (fillMetric m t) r₁ h₁
    exact ⟨r', h', hf₁.trans hf'⟩

theorem cleanTable_length (rows : List Row) : (cleanTable rows).length = rows.length :=
  foldl_fill_length Metric.all rows

theorem cleanTable_frame (rows : List Row) (i : Nat) (r : Row) (h : rows[i]? = some r) :
    ∃ r', (cleanTable rows)[i]? = some r' ∧ FrameEq r r' :=
  foldl_fill_frame Metric.all rows i r h

/-- The location column is unchanged by cleaning. -/
theorem cleanTable_map_location (rows : List Row) :
    (cleanTable rows).map (fun r => r.location) = rows.map (fun r => r.location) := by
  apply List.ext_getElem?
  intro i
  by_cases h : i < rows.length
  · have hr : rows[i]? = some rows[i] := List.getElem?_eq_getElem h
    obtain ⟨r', h', hf⟩ := cleanTable_frame rows i _ hr
    rw [List.getElem?_map, List.getElem?_map, h', hr]
    simp [hf.1]
  · rw [List.getElem?_map, List.getElem?_map,
      List.getElem?_eq_none (by rw [cleanTable_length]; omega),
      List.getElem?_eq_none (by omega)]

end FrameLemmas

/-- Value of a derived float column: pandas `NaN` (null), the two IEEE
infinities, or a finite value.  `pd.isna` is true only of `nan`. -/
inductive FVal where
  | nan
  | inf
  | ninf
  | fin (q : ℚ)
deriving DecidableEq, Repr

/-- A nullable data column injected into float values (`NaN` for null). -/
def FVal.ofOpt : Option ℚ → FVal
  | none => .nan
  | some q => .fin q

/-- IEEE division on the embedded values: division by zero of a nonzero
finite numerator gives an infinity, `0 / 0` gives `nan`, `nan` propagates. -/
def FVal.div : FVal → FVal → FVal
  | .nan, _ => .nan
  | _, .nan => .nan
  | .fin a, .fin b =>
    if b = 0 then (if a = 0 then .nan else if 0 < a then .inf else .ninf)
    else .fin (a / b)
  | .inf, .fin b => if b < 0 then .ninf else .inf
  | .ninf, .fin b => if b < 0 then .inf else .ninf
  | .fin _, .inf => .fin 0
  | .fin _, .ninf => .fin 0
  | .inf, .inf => .nan
  | .inf, .ninf => .nan
  | .ninf, .inf => .nan
  | .ninf, .ninf => .nan

/-- IEEE multiplication on the embedded values (`inf * 0 = nan`). -/
def FVal.mul : FVal → FVal → FVal
  | .nan, _ => .nan
  | _, .nan => .nan
  | .fin a, .fin b => .fin (a * b)
  | .inf, .fin b => if b = 0 then .nan else if 0 < b then .inf else .ninf
  | .fin a, .inf => if a = 0 then .nan else if 0 < a then .inf else .ninf
  | .ninf, .fin b => if b = 0 then .nan else if 0 < b then .ninf else .inf
  | .fin a, .ninf => if a = 0 then .nan else if 0 < a then .ninf else .inf
  | .inf, .inf => .inf
  | .inf, .ninf => .ninf
  | .ninf, .inf => .ninf
  | .ninf, .ninf => .inf

/-- `pd.isna` on a derived column value: true exactly of `NaN`. -/
def FVal.isNull : FVal → Bool
  | .nan => true
  | _ => false

/-- True of a finite numeric value. -/
def FVal.isFin : FVal → Bool
  | .fin _ => true
  | _ => false

/-- `filtered_df['death_rate'] = (filtered_df['total_deaths'] /
filtered_df['total_cases']) * 100` (section 4.4). -/
def death_rate (r : Row) : FVal :=
  ((FVal.ofOpt r.total_deaths).div (FVal.ofOpt r.total_cases)).mul (FVal.fin 100)

/-- `filtered_df['cfr'] = filtered_df['total_deaths'] /
filtered_df['total_cases'] * 100` (section 7). -/
def cfr (r : Row) : FVal :=
  ((FVal.ofOpt r.total_deaths).div (FVal.ofOpt r.total_cases)).mul (FVal.fin 100)

/-- The trailing window of at most 7 entries ending at index `i`. -/
def trailingWindow (xs : List (Option ℚ)) (i : Nat) : List (Option ℚ) :=
  (xs.take (i + 1)).drop (i + 1 - 7)

/-- `Series.rolling(7, min_periods=1).mean()`: at each index, the mean of the
non-null entries of the trailing window of at most 7 entries; null when the
window holds no non-null entry. -/
def rollingMean7 (xs : List (Option ℚ)) : List (Option ℚ) :=
  (List.range xs.length).map (fun i =>
    let w := (trailingWindow xs i).filterMap id
    if w.isEmpty then none else some (w.sum / (w.length : ℚ)))

/-- Modelled from the spec: the claim's reading of the smoothed value — the
arithmetic mean of ALL of the trailing `min(i, 7)` raw observations, which is
a number only when every observation in the window is non-null. -/
def specTrailingMean (xs : List (Option ℚ)) (i : Nat) : Option ℚ :=
  let w := trailingWindow xs i
  if w.all Option.isSome then some ((w.filterMap id).sum / (w.length : ℚ)) else none

section RollingLemmas

theorem trailingWindow_length (xs : List (Option ℚ)) (i : Nat) (h : i < xs.length) :
    (trailingWindow xs i).length = min (i + 1) 7 := by
  simp only [trailingWindow, List.length_drop, List.length_take]
  omega

theorem rollingMean7_length (xs : List (Option ℚ)) :
    (rollingMean7 xs).length = xs.length := by
  simp [rollingMean7]

theorem rollingMean7_getElem? (xs : List (Option ℚ)) (i : Nat) (h : i < xs.length) :
    (rollingMean7 xs)[i]? =
      some (let w := (trailingWindow xs i).filterMap id
            if w.isEmpty then none else some (w.sum / (w.length : ℚ))) := by
  simp only [rollingMean7, List.getElem?_map, List.getElem?_range h]
  rfl

theorem filterMap_id_length_of_all_isSome {α : Type} (l : List (Option α))
    (h : ∀ x ∈ l, x.isSome = true) : (l.filterMap id).length = l.length := by
  induction l with
  | nil => rfl
  | cons x l ih =>
    obtain ⟨v, hv⟩ := Option.isSome_iff_exists.mp (h x (List.mem_cons_self x l))
    rw [hv]
    simp only [List.filterMap_cons, id, List.length_cons]
    rw [ih (fun y hy => h y (List.mem_cons_of_mem x hy))]

end RollingLemmas

/-- Date-ascending order used by `sort_values('date')`. -/
def dateLe (a b : Row) : Prop := a.date ≤ b.date

instance : DecidableRel dateLe := fun a b => Nat.decLe a.date b.date

instance : IsTotal Row dateLe := ⟨fun a b => Nat.le_total a.date b.date⟩

instance : IsTrans Row dateLe := ⟨fun _ _ _ h₁ h₂ => Nat.le_trans h₁ h₂⟩

/-- The rows of location `L`, sorted by date: the group that
`sort_values('date').groupby('location')` hands to the aggregator. -/
def locRowsSorted (rows : List Row) (L : String) : List Row :=
  List.insertionSort dateLe (rows.filter (fun r => r.location = L))

/-- The last non-null entry of a series (`GroupBy.last` on one column, which
by pandas semantics skips nulls). -/
def lastNonNull (xs : List (Option ℚ)) : Option ℚ :=
  (xs.filterMap id).getLast?

/-- `sort_values('date').groupby('location').last()`, one cell: the last
non-null value of column `g` in the date-sorted rows of location `L`. -/
def snapVal (rows : List Row) (L : String) (g : Row → Option ℚ) : Option ℚ :=
  lastNonNull ((locRowsSorted rows L).map g)

/-- Modelled from the spec: the claim's reading of the snapshot — the column
value of the single max-date row of the location. -/
def specSnapVal (rows : List Row) (L : String) (g : Row → Option ℚ) : Option ℚ :=
  ((locRowsSorted rows L).getLast?).bind g

/-- `country_df = df[~df['location'].isin(continents)]`. -/
def countryDf (df : List Row) : List Row :=
  df.filter (fun r => r.location ∉ continents)

/-- `filtered_df = df[df['location'].isin(countries_of_interest)]` followed by
the forward-fill cleaning loop. -/
def filteredClean (df : List Row) : List Row :=
  cleanTable (df.filter (fun r => r.location ∈ countriesOfInterest))

/-- The distinct locations of a table, in order of first appearance: the group
keys of `groupby('location')`. -/
def locationsOf (rows : List Row) : List String :=
  (rows.map (fun r => r.location)).dedup

/-- The group keys of `latest_global_data = df.sort_values('date')
.groupby('location').last().reset_index()` — computed from the FULL dataset. -/
def latestGlobalLocations (df : List Row) : List String :=
  locationsOf df

/-- `country_data['population'].iloc[-1]`: the population entry of the last
row of the location, in table order (null if the location has no rows or the
entry itself is null). -/
def latestPopOf (rows : List Row) (L : String) : Option ℚ :=
  ((rows.filter (fun r => r.location = L)).getLast?).bind (fun r => r.population)

/-- The vaccination-percentage column of section 5: for each country of
interest whose last population entry is non-null and positive,
`people_fully_vaccinated / latest_pop * 100`; otherwise left unset (null). -/
def pctVaccinated (rows : List Row) (r : Row) : Option ℚ :=
  if r.location ∈ countriesOfInterest then
    match latestPopOf rows r.location with
    | some p => if 0 < p then r.people_fully_vaccinated.map (fun v => v / p * 100) else none
    | none => none
  else none

/-- Descending order on latest-snapshot cells, nulls last — the order of
`sort_values(metric, ascending=False)` with default `na_position='last'`. -/
def cellGe (a b : Option ℚ) : Prop :=
  match a, b with
  | some x, some y => y ≤ x
  | none, some _ => False
  | _, _ => True

instance : DecidableRel cellGe := fun a b => by
  unfold cellGe
  cases a <;> cases b <;> infer_instance

/-- The row order of the ranking tables: compare the metric cells. -/
def rowGe (p q : String × Option ℚ) : Prop := cellGe p.2 q.2

instance : DecidableRel rowGe := fun p q => by
  unfold rowGe
  infer_instance

theorem cellGe_total (a b : Option ℚ) : cellGe a b ∨ cellGe b a := by
  rcases a with _ | x <;> rcases b with _ | y <;> simp only [cellGe]
  · exact Or.inl trivial
  · exact Or.inr trivial
  · exact Or.inl trivial
  · exact le_total y x

theorem cellGe_trans (a b c : Option ℚ) (h₁ : cellGe a b) (h₂ : cellGe b c) :
    cellGe a c := by
  rcases a with _ | x <;> rcases b with _ | y <;> rcases c with _ | z
  all_goals simp only [cellGe] at *
  all_goals first | trivial | exact le_trans h₂ h₁

instance : IsTotal (String × Option ℚ) rowGe := ⟨fun p q => cellGe_total p.2 q.2⟩

instance : IsTrans (String × Option ℚ) rowGe :=
  ⟨fun p q s h₁ h₂ => cellGe_trans p.2 q.2 s.2 h₁ h₂⟩

/-- `latest_data`: one (location, metric cell) pair per location, the cell
taken by `sort_values('date').groupby('location').last()`. -/
def latestTable (rows : List Row) (g : Row → Option ℚ) : List (String × Option ℚ) :=
  (locationsOf rows).map (fun L => (L, snapVal rows L g))

/-- `latest_data.sort_values(metric, ascending=False)[['location', metric]]
.head(5)`. -/
def top5By (rows : List Row) (g : Row → Option ℚ) : List (String × Option ℚ) :=
  (List.insertionSort rowGe (latestTable rows g)).take 5

/-- `top_cases` (section 8). -/
def top5Cases (df : List Row) : List (String × Option ℚ) :=
  top5By (filteredClean df) (fun r => r.total_cases)

/-- `top_deaths` (section 8). -/
def top5Deaths (df : List Row) : List (String × Option ℚ) :=
  top5By (filteredClean df) (fun r => r.total_deaths)

/-- `top_vax` (section 8): ranking by the derived `pct_vaccinated` column. -/
def top5Vax (df : List Row) : List (String × Option ℚ) :=
  let c := filteredClean df
  top5By c (fun r => pctVaccinated c r)

/-- The claim's reading of the ranking order: strictly descending numeric
cells. -/
def strictDescPair (p q : String × Option ℚ) : Prop :=
  match p.2, q.2 with
  | some x, some y => y < x
  | _, _ => False

instance : DecidableRel strictDescPair := fun p q => by
  unfold strictDescPair
  rcases p.2 with _ | x <;> rcases q.2 with _ | y <;> infer_instance

/-- Modelled from the spec: "sorted strictly descending by that metric". -/
def StrictlyDescending (l : List (String × Option ℚ)) : Prop :=
  l.Pairwise strictDescPair

instance (l : List (String × Option ℚ)) : Decidable (StrictlyDescending l) :=
  List.instDecidablePairwise l

/-- `DataFrame.pivot(index='date', columns='location', values=...)`: raises
`ValueError` when some (date, location) pair occurs twice, otherwise the keyed
list of cells. -/
def pivot {α : Type} (v : Row → α) (rows : List Row) :
    Except String (List ((Nat × String) × α)) :=
  if (rows.map (fun r => (r.date, r.location))).Nodup then
    .ok (rows.map (fun r => ((r.date, r.location), v r)))
  else
    .error "Index contains duplicate entries, cannot reshape"

/-- The two lines printed by the first `except` block (section 6). -/
def chorMsgCases (e : String) : List String :=
  ["Error creating cases choropleth: " ++ e,
   "If you're running this notebook locally, you'll need an internet connection for Plotly maps."]

/-- The two lines printed by the second `except` block (section 6). -/
def chorMsgVax (e : String) : List String :=
  ["Error creating vaccination choropleth: " ++ e,
   "If you're running this notebook locally, you'll need an internet connection for Plotly maps."]

/-- A map-rendering step: `none` renders fine, `some e` raises exception `e`
(e.g. no network access for tiles). -/
def render (outcome : Option String) : Except String Unit :=
  match outcome with
  | none => .ok ()
  | some e => .error e

/-- A `try`/`except Exception as e: print(...)` block: the handler's printed
lines on failure, nothing on success; no exception escapes. -/
def tryRender (step : Except String Unit) (handler : String → List String) : List String :=
  match step with
  | .ok _ => []
  | .error e => handler e

/-- `latest_global_data['vaccination_percentage']`, computed inside the second
`try` block before the render call: snapshot fully-vaccinated over snapshot
population, as floats (division by a zero population gives an infinity). -/
def vaxPctColumn (df : List Row) : List FVal :=
  (latestGlobalLocations df).map (fun L =>
    ((FVal.ofOpt (snapVal df L (fun r => r.people_fully_vaccinated))).div
      (FVal.ofOpt (snapVal df L (fun r => r.population)))).mul (FVal.fin 100))

/-- Everything the pipeline produces after the first choropleth cell. -/
structure TailOut where
  printed : List String
  vaxPct : List FVal
  cfrPivot : Except String (List ((Nat × String) × FVal))
  topCases : List (String × Option ℚ)
  topDeaths : List (String × Option ℚ)
  topVax : List (String × Option ℚ)
deriving Repr

/-- The tail of the pipeline (sections 6–8): both guarded choropleth renders,
then the CFR pivot and the three top-5 tables.  `o1`/`o2` are the exception
outcomes of the two render calls. -/
def runTail (df : List Row) (o1 o2 : Option String) : TailOut :=
  let p1 := tryRender (render o1) chorMsgCases
  let vax := vaxPctColumn df
  let p2 := tryRender (render o2) chorMsgVax
  { printed := p1 ++ p2
    vaxPct := vax
    cfrPivot := pivot (fun r => cfr r) (filteredClean df)
    topCases := top5Cases df
    topDeaths := top5Deaths df
    topVax := top5Vax df }

/-- Default row for building concrete tables: all numeric columns null. -/
def row0 : Row :=
  { location := "", iso_code := "", date := 0, total_cases := none, new_cases := none,
    total_deaths := none, new_deaths := none, total_vaccinations := none,
    people_vaccinated := none, people_fully_vaccinated := none, population := none }

/-- Claim C1: after the cleaning loop, each location's metric column carries,
at every position, the most recent non-missing original value at or before
that position (so it is non-null from the first non-null original onwards,
and still null strictly before it). -/
theorem c1_forward_fill (df : List Row) (L : String) (m : Metric) (i : Nat)
    (h : i < (locSeq m L df).length) :
    (locSeq m L (cleanTable df))[i]? =
        some ((((locSeq m L df).take (i + 1)).filterMap id).getLast?) ∧
    ((((locSeq m L df).take (i + 1)).filterMap id) ≠ [] →
      ∃ v, (locSeq m L (cleanTable df))[i]? = some (some v)) ∧
    ((((locSeq m L df).take (i + 1)).filterMap id) = [] →
      (locSeq m L (cleanTable df))[i]? = some none) := by
  have he : (locSeq m L (cleanTable df))[i]? =
      some ((((locSeq m L df).take (i + 1)).filterMap id).getLast?) := by
    rw [cleanTable_locSeq m df L]
    exact ffill_getElem? (locSeq m L df) i h
  refine ⟨he, ?_, ?_⟩
  · intro hne
    rcases hg : (((locSeq m L df).take (i + 1)).filterMap id).getLast? with _ | v
    · exact absurd (List.getLast?_eq_none_iff.mp hg) hne
    · exact ⟨v, by rw [he, hg]⟩
  · intro hnil
    rw [he, hnil]
    rfl

/-- Concrete table exercising the forward fill: three Kenya rows with a null,
a value and a trailing null, interleaved with a Brazil row. -/
def c1df : List Row :=
  [{ row0 with location := "Kenya", date := 1 },
   { row0 with location := "Brazil", date := 1, total_cases := some 7 },
   { row0 with location := "Kenya", date := 2, total_cases := some 5 },
   { row0 with location := "Kenya", date := 3 }]

theorem c1_forward_fill_witness :
    (locSeq Metric.total_cases "Kenya" (cleanTable c1df))[2]? = some (some 5) := by
  have h := (c1_forward_fill c1df "Kenya" Metric.total_cases 2 (by decide)).1
  rw [h]
  decide

/-- Claim C9: the cleaning loop is frame-preserving — the row count is
unchanged, each row keeps its location, ISO code, date and population, and
every originally non-null key-metric entry keeps its value. -/
theorem c9_clean_frame (df : List Row) (i : Nat) (r : Row) (h : df[i]? = some r) :
    (cleanTable df).length = df.length ∧
      ∃ r', (cleanTable df)[i]? = some r' ∧ FrameEq r r' :=
  ⟨cleanTable_length df, cleanTable_frame df i r h⟩

theorem c9_clean_frame_witness :
    (cleanTable c1df).length = c1df.length ∧
      ∃ r', (cleanTable c1df)[0]? = some r' ∧ FrameEq { row0 with location := "Kenya", date := 1 } r' :=
  c9_clean_frame c1df 0 { row0 with location := "Kenya", date := 1 } (by decide)

section RatioLemmas

theorem FVal.nan_div (x : FVal) : FVal.div .nan x = .nan := by cases x <;> rfl

theorem FVal.div_nan (x : FVal) : FVal.div x .nan = .nan := by cases x <;> rfl

theorem FVal.nan_mul (x : FVal) : FVal.mul .nan x = .nan := by cases x <;> rfl

theorem ratio_isNull_of_num_none (c : Option ℚ) :
    (((FVal.ofOpt none).div (FVal.ofOpt c)).mul (FVal.fin 100)).isNull = true := by
  cases c <;> rfl

theorem ratio_isNull_of_den_none (d : Option ℚ) :
    (((FVal.ofOpt d).div (FVal.ofOpt none)).mul (FVal.fin 100)).isNull = true := by
  cases d <;> rfl

theorem ratio_den_zero_notFin (d : Option ℚ) :
    (((FVal.ofOpt d).div (FVal.ofOpt (some 0))).mul (FVal.fin 100)).isFin = false := by
  rcases d with _ | q
  · rfl
  · show (((FVal.fin q).div (FVal.fin 0)).mul (FVal.fin 100)).isFin = false
    rw [FVal.div, if_pos rfl]
    by_cases hq : q = 0
    · rw [if_pos hq]
      rfl
    · rw [if_neg hq]
      by_cases hq' : 0 < q
      · rw [if_pos hq']
        show (FVal.mul .inf (.fin 100)).isFin = false
        rw [FVal.mul, if_neg (by norm_num), if_pos (by norm_num)]
        rfl
      · rw [if_neg hq']
        show (FVal.mul .ninf (.fin 100)).isFin = false
        rw [FVal.mul, if_neg (by norm_num), if_pos (by norm_num)]
        rfl

end RatioLemmas

/-- Row with zero reported cases but five reported deaths: IEEE division
turns the zero denominator into `+inf`, which pandas does not count as null. -/
def c2row : Row := { row0 with total_deaths := some 5, total_cases := some 0 }

/-- Claim C2 counterexample: at an observation with `total_cases = 0` and
`total_deaths = 5`, the derived death-rate and CFR columns are `+inf` —
not null — so a zero denominator does silently produce a non-null value. -/
theorem c2_counterexample :
    c2row.total_cases = some 0 ∧
      death_rate c2row = FVal.inf ∧ cfr c2row = FVal.inf ∧
      (death_rate c2row).isNull = false ∧ (cfr c2row).isNull = false := by
  decide

/-- Claim C2 as amended: the death-rate and CFR columns are null whenever
`total_cases` is null, whenever `total_deaths` is null, and whenever both are
zero; a zero `total_cases` never yields a FINITE value (it yields null or an
infinity). -/
theorem c2_death_rate_null (r : Row) :
    (r.total_cases = none → (death_rate r).isNull = true ∧ (cfr r).isNull = true) ∧
    (r.total_deaths = none → (death_rate r).isNull = true ∧ (cfr r).isNull = true) ∧
    (r.total_cases = some 0 → r.total_deaths = some 0 →
      (death_rate r).isNull = true ∧ (cfr r).isNull = true) ∧
    (r.total_cases = some 0 → (death_rate r).isFin = false ∧ (cfr r).isFin = false) := by
  refine ⟨?_, ?_, ?_, ?_⟩
  · intro h
    unfold death_rate cfr
    rw [h]
    exact ⟨ratio_isNull_of_den_none r.total_deaths, ratio_isNull_of_den_none r.total_deaths⟩
  · intro h
    unfold death_rate cfr
    rw [h]
    exact ⟨ratio_isNull_of_num_none r.total_cases, ratio_isNull_of_num_none r.total_cases⟩
  · intro hc hd
    unfold death_rate cfr
    rw [hc, hd]
    exact ⟨by decide, by decide⟩
  · intro hc
    unfold death_rate cfr
    rw [hc]
    exact ⟨ratio_den_zero_notFin r.total_deaths, ratio_den_zero_notFin r.total_deaths⟩

theorem c2_death_rate_null_witness :
    (death_rate { row0 with total_deaths := some 3 }).isNull = true ∧
      (cfr { row0 with total_deaths := some 3 }).isNull = true :=
  (c2_death_rate_null { row0 with total_deaths := some 3 }).1 rfl

section RollingMainLemmas

theorem rollingMean7_head? (xs : List (Option ℚ)) :
    (rollingMean7 xs).head? = xs.head? := by
  cases xs with
  | nil => rfl
  | cons x l =>
    have h := rollingMean7_getElem? (x :: l) 0 (by simp)
    have hw : trailingWindow (x :: l) 0 = [x] := by
      simp [trailingWindow]
    rw [List.head?_eq_getElem?, List.head?_eq_getElem?, h, hw]
    cases x with
    | none => simp
    | some v => simp [List.filterMap_cons]

theorem rollingMean7_allSome (xs : List (Option ℚ)) (i : Nat) (h : i < xs.length)
    (hall : ∀ x ∈ trailingWindow xs i, x.isSome = true) :
    (rollingMean7 xs)[i]? =
      some (some (((trailingWindow xs i).filterMap id).sum / ((min (i + 1) 7 : ℕ) : ℚ))) := by
  rw [rollingMean7_getElem? xs i h]
  have hlen : ((trailingWindow xs i).filterMap id).length = min (i + 1) 7 := by
    rw [filterMap_id_length_of_all_isSome _ hall, trailingWindow_length xs i h]
  have hne : ¬ ((trailingWindow xs i).filterMap id).isEmpty = true := by
    rw [List.isEmpty_iff_length_eq_zero, hlen]
    omega
  simp only [if_neg hne, hlen]

theorem rollingMean7_allNone (xs : List (Option ℚ)) (i : Nat) (h : i < xs.length)
    (hall : ∀ x ∈ trailingWindow xs i, x = none) :
    (rollingMean7 xs)[i]? = some none := by
  rw [rollingMean7_getElem? xs i h]
  have hnil : (trailingWindow xs i).filterMap id = [] := by
    rw [List.filterMap_eq_nil_iff]
    exact hall
  simp [hnil]

end RollingMainLemmas

/-- Claim C4 as amended: the smoothed new-cases value of a location at
position `i` is computed over the trailing window of `min(i+1, 7)`
forward-filled entries — it is the mean of the NON-NULL entries of that
window (sum of the non-null values over `min(i+1,7)` when every entry of the
window is non-null), it is null when every entry of the window is null, and
at the first observation it equals that observation's value. -/
theorem c4_rolling_mean (rows : List Row) (L : String) (i : Nat)
    (h : i < (locSeq Metric.new_cases L rows).length) :
    (rollingMean7 (locSeq Metric.new_cases L rows)).length =
        (locSeq Metric.new_cases L rows).length ∧
    ((∀ x ∈ trailingWindow (locSeq Metric.new_cases L rows) i, x.isSome = true) →
      (rollingMean7 (locSeq Metric.new_cases L rows))[i]? =
        some (some (((trailingWindow (locSeq Metric.new_cases L rows) i).filterMap id).sum /
          ((min (i + 1) 7 : ℕ) : ℚ)))) ∧
    ((∀ x ∈ trailingWindow (locSeq Metric.new_cases L rows) i, x = none) →
      (rollingMean7 (locSeq Metric.new_cases L rows))[i]? = some none) ∧
    (rollingMean7 (locSeq Metric.new_cases L rows)).head? =
        (locSeq Metric.new_cases L rows).head? :=
  ⟨rollingMean7_length _, rollingMean7_allSome _ i h, rollingMean7_allNone _ i h,
    rollingMean7_head? _⟩

/-- Two Kenya rows whose first `new_cases` entry is null (a leading null that
forward filling cannot fill). -/
def c4df : List Row :=
  [{ row0 with location := "Kenya", date := 1 },
   { row0 with location := "Kenya", date := 2, new_cases := some 10 }]

/-- Claim C4 counterexample: at the second observation of Kenya the code's
smoothed value is 10 (pandas skips the null in the window), while the claimed
"arithmetic mean of the trailing 2 raw observations" is undefined because the
first observation is null — the two disagree, refuting the claim that the
smoothed value always equals the plain mean of the whole trailing window. -/
theorem c4_counterexample :
    (rollingMean7 (locSeq Metric.new_cases "Kenya" (filteredClean c4df)))[1]? =
        some (some 10) ∧
      specTrailingMean (locSeq Metric.new_cases "Kenya" (filteredClean c4df)) 1 = none := by
  have h1 : locSeq Metric.new_cases "Kenya" (filteredClean c4df) = [none, some 10] := by
    decide
  rw [h1]
  constructor
  · rw [rollingMean7_getElem? [none, some 10] 1 (by norm_num)]
    have hw : trailingWindow [none, some 10] 1 = [none, some 10] := by decide
    simp [hw, List.filterMap_cons]
  · decide

theorem c4_rolling_mean_witness :
    (rollingMean7 (locSeq Metric.new_cases "Kenya" (filteredClean c4df))).head? =
      (locSeq Metric.new_cases "Kenya" (filteredClean c4df)).head? :=
  (c4_rolling_mean (filteredClean c4df) "Kenya" 0 (by decide)).2.2.2

/-- Claim C3 as amended: the latest-snapshot cell of a column is the last
non-null value of the date-sorted location rows; in particular it agrees with
the max-date row whenever that row's value is non-null (but may come from an
earlier row otherwise). -/
theorem c3_snapshot_last (rows : List Row) (L : String) (g : Row → Option ℚ) (r : Row)
    (hlast : (locRowsSorted rows L).getLast? = some r) (hsome : (g r).isSome = true) :
    snapVal rows L g = g r := by
  obtain ⟨l', hl'⟩ := List.getLast?_eq_some_iff.mp hlast
  obtain ⟨v, hv⟩ := Option.isSome_iff_exists.mp hsome
  rw [snapVal, lastNonNull, hl', List.map_append, List.filterMap_append]
  simp [hv, List.filterMap_cons]

/-- Two Kenya rows: population reported on day 1 but null on day 2 (the
population column is not forward-filled by the cleaning loop). -/
def c3df : List Row :=
  [{ row0 with location := "Kenya", date := 1, population := some 50 },
   { row0 with location := "Kenya", date := 2 }]

/-- Claim C3 counterexample: `groupby('location').last()` takes the last
NON-NULL entry per column, so the snapshot population is 50 from the day-1
row, while the single max-date row (day 2) has a null population — the
snapshot row does not equal the chronologically last observation. -/
theorem c3_counterexample :
    snapVal (filteredClean c3df) "Kenya" (fun r => r.population) = some 50 ∧
      specSnapVal (filteredClean c3df) "Kenya" (fun r => r.population) = none := by
  decide

theorem c3_snapshot_last_witness :
    snapVal (filteredClean c1df) "Kenya" (fun r => r.total_cases) =
      ({ row0 with location := "Kenya", date := 3, total_cases := some 5 } : Row).total_cases :=
  c3_snapshot_last (filteredClean c1df) "Kenya" (fun r => r.total_cases)
    { row0 with location := "Kenya", date := 3, total_cases := some 5 }
    (by decide) (by decide)

/-- Claim C5 as amended: the country-level subset contains no aggregate
pseudo-location, but the latest-snapshot table for the choropleth maps is
computed from the FULL dataset, so every location of the dataset — aggregates
included — appears among its group keys. -/
theorem c5_no_aggregates (df : List Row) :
    (∀ r ∈ countryDf df, r.location ∉ continents) ∧
    (∀ L ∈ df.map (fun r => r.location), L ∈ latestGlobalLocations df) := by
  constructor
  · intro r hr
    have h := (List.mem_filter.mp hr).2
    simpa using h
  · intro L hL
    simpa [latestGlobalLocations, locationsOf] using List.mem_dedup.mpr hL

/-- A dataset holding a World aggregate row next to a Kenya row. -/
def c5df : List Row :=
  [{ row0 with location := "World", iso_code := "OWID_WRL", date := 1 },
   { row0 with location := "Kenya", iso_code := "KEN", date := 1 }]

/-- Claim C5 counterexample: the latest-snapshot table used for the
choropleth maps is built from the full dataset, and here it keeps the
aggregate location World, which is in the exclusion list — so the claim that
the snapshot data contains zero aggregate rows is false. -/
theorem c5_counterexample :
    "World" ∈ latestGlobalLocations c5df ∧ "World" ∈ continents := by
  decide

theorem c5_no_aggregates_witness :
    ("Kenya" : String) ∉ continents ∧ "Kenya" ∈ latestGlobalLocations c5df :=
  ⟨(c5_no_aggregates c5df).1 { row0 with location := "Kenya", iso_code := "KEN", date := 1 }
      (by decide),
    (c5_no_aggregates c5df).2 "Kenya" (by decide)⟩

section TopLemmas

theorem locationsOf_filteredClean (df : List Row) :
    ∀ L ∈ locationsOf (filteredClean df), L ∈ countriesOfInterest := by
  intro L hL
  unfold locationsOf filteredClean at hL
  rw [cleanTable_map_location] at hL
  obtain ⟨r, hr, he⟩ := List.mem_map.mp (List.mem_dedup.mp hL)
  have hmem := (List.mem_filter.mp hr).2
  rw [← he]
  simpa using hmem

theorem top5By_spec (rows : List Row) (g : Row → Option ℚ)
    (hloc : ∀ L ∈ locationsOf rows, L ∈ countriesOfInterest) :
    (top5By rows g).length ≤ 5 ∧ List.Sorted rowGe (top5By rows g) ∧
      ∀ p ∈ top5By rows g, p.1 ∈ countriesOfInterest := by
  refine ⟨List.length_take_le 5 _, ?_, ?_⟩
  · exact List.Pairwise.sublist (List.take_sublist 5 _)
      (List.sorted_insertionSort rowGe (latestTable rows g))
  · intro p hp
    have h1 : p ∈ List.insertionSort rowGe (latestTable rows g) :=
      List.mem_of_mem_take hp
    have h2 : p ∈ latestTable rows g :=
      (List.perm_insertionSort rowGe (latestTable rows g)).mem_iff.mp h1
    obtain ⟨L, hL, hpe⟩ := List.mem_map.mp h2
    rw [← hpe]
    exact hloc L hL

end TopLemmas

/-- Claim C6 as amended: each of the three top-5 tables (total cases, total
deaths, vaccination rate) has at most 5 rows, is sorted in non-increasing
order of its metric with nulls last (ties are possible, so the order is not
strict), and contains only locations from the fixed country selection. -/
theorem c6_top5 (df : List Row) :
    ((top5Cases df).length ≤ 5 ∧ List.Sorted rowGe (top5Cases df) ∧
      ∀ p ∈ top5Cases df, p.1 ∈ countriesOfInterest) ∧
    ((top5Deaths df).length ≤ 5 ∧ List.Sorted rowGe (top5Deaths df) ∧
      ∀ p ∈ top5Deaths df, p.1 ∈ countriesOfInterest) ∧
    ((top5Vax df).length ≤ 5 ∧ List.Sorted rowGe (top5Vax df) ∧
      ∀ p ∈ top5Vax df, p.1 ∈ countriesOfInterest) :=
  ⟨top5By_spec (filteredClean df) _ (locationsOf_filteredClean df),
    top5By_spec (filteredClean df) _ (locationsOf_filteredClean df),
    top5By_spec (filteredClean df) _ (locationsOf_filteredClean df)⟩

/-- Dataset in which Kenya and China report the same total case count. -/
def c6df : List Row :=
  [{ row0 with location := "Kenya", date := 1, total_cases := some 10 },
   { row0 with location := "China", date := 1, total_cases := some 10 }]

/-- Claim C6 counterexample: with a tie in total cases, the produced top-5
table holds the tied value twice and therefore is NOT sorted strictly
descending, refuting the claimed strictness. -/
theorem c6_counterexample :
    (top5Cases c6df).map (fun p => p.2) = [some 10, some 10] ∧
      ¬ StrictlyDescending (top5Cases c6df) := by
  constructor
  · decide
  · intro h
    have := h
    rw [show top5Cases c6df = [("Kenya", some 10), ("China", some 10)] from by decide] at this
    have hlt := List.rel_of_pairwise_cons this (List.mem_singleton.mpr rfl)
    simp [strictDescPair] at hlt

theorem c6_top5_witness :
    (top5Cases c6df).length ≤ 5 ∧ ("Kenya", (some 10 : Option ℚ)).1 ∈ countriesOfInterest :=
  ⟨(c6_top5 c6df).1.1, (c6_top5 c6df).1.2.2 ("Kenya", some 10) (by decide)⟩

/-- Claim C7: for a country of interest, when the location's last population
entry is non-null and positive, the vaccination-percentage column at every
observation is exactly `people_fully_vaccinated / latest_pop * 100` (null
where the count is null); the stored value is NOT clamped to [0,100] — a
fully-vaccinated count above the population yields a value above 100 — and
when the latest population is null or non-positive the column stays null. -/
theorem c7_pct_vaccinated (rows : List Row) (r : Row)
    (hc : r.location ∈ countriesOfInterest) :
    (∀ p, latestPopOf rows r.location = some p → 0 < p →
      pctVaccinated rows r = r.people_fully_vaccinated.map (fun v => v / p * 100)) ∧
    (latestPopOf rows r.location = none → pctVaccinated rows r = none) ∧
    (∀ p, latestPopOf rows r.location = some p → ¬ 0 < p →
      pctVaccinated rows r = none) ∧
    (∀ p v, latestPopOf rows r.location = some p → 0 < p →
      r.people_fully_vaccinated = some v → p < v →
      ∃ q, pctVaccinated rows r = some q ∧ 100 < q) := by
  refine ⟨?_, ?_, ?_, ?_⟩
  · intro p hp hpos
    simp [pctVaccinated, hc, hp, if_pos hpos]
  · intro hp
    simp [pctVaccinated, hc, hp]
  · intro p hp hnpos
    simp [pctVaccinated, hc, hp, if_neg hnpos]
  · intro p v hp hpos hv hlt
    refine ⟨v / p * 100, ?_, ?_⟩
    · simp [pctVaccinated, hc, hp, if_pos hpos, hv]
    · have h1 : (1 : ℚ) < v / p := (one_lt_div hpos).mpr hlt
      calc (100 : ℚ) = 1 * 100 := by norm_num
        _ < v / p * 100 := by
            exact (mul_lt_mul_right (by norm_num : (0 : ℚ) < 100)).mpr h1

/-- One Kenya row whose fully-vaccinated count exceeds its population. -/
def c7row : Row :=
  { row0 with location := "Kenya", date := 1, people_fully_vaccinated := some 75, population := some 50 }

def c7df : List Row := [c7row]

theorem c7_pct_vaccinated_witness :
    ∃ q, pctVaccinated c7df c7row = some q ∧ 100 < q :=
  (c7_pct_vaccinated c7df c7row (by decide)).2.2.2 50 75 (by decide) (by norm_num) rfl
    (by norm_num)

/-- Claim C8: a failure of either choropleth render is caught — its messages
are printed — and the rest of the pipeline (the vaccination-percentage
column, the other map, the CFR pivot and the three top-5 tables) is computed
exactly as in a failure-free run; no render exception escapes or changes the
analysis state. -/
theorem c8_render_guard (df : List Row) (o1 o2 : Option String) :
    (runTail df o1 o2).cfrPivot = (runTail df none none).cfrPivot ∧
    (runTail df o1 o2).topCases = (runTail df none none).topCases ∧
    (runTail df o1 o2).topDeaths = (runTail df none none).topDeaths ∧
    (runTail df o1 o2).topVax = (runTail df none none).topVax ∧
    (runTail df o1 o2).vaxPct = (runTail df none none).vaxPct ∧
    (∀ e, o1 = some e → ∀ msg ∈ chorMsgCases e, msg ∈ (runTail df o1 o2).printed) ∧
    (∀ e, o2 = some e → ∀ msg ∈ chorMsgVax e, msg ∈ (runTail df o1 o2).printed) ∧
    (o1 = none → o2 = none → (runTail df o1 o2).printed = []) := by
  refine ⟨rfl, rfl, rfl, rfl, rfl, ?_, ?_, ?_⟩
  · intro e he msg hmsg
    subst he
    simp [runTail, tryRender, render]
    exact Or.inl hmsg
  · intro e he msg hmsg
    subst he
    simp [runTail, tryRender, render]
    exact Or.inr hmsg
  · intro h1 h2
    subst h1
    subst h2
    rfl

theorem c8_render_guard_witness :
    ("Error creating cases choropleth: no internet" ∈
        (runTail [] (some "no internet") none).printed) ∧
      (runTail [] (some "no internet") none).cfrPivot = (runTail [] none none).cfrPivot :=
  ⟨(c8_render_guard [] (some "no internet") none).2.2.2.2.2.1 "no internet" rfl
      _ (by simp [chorMsgCases]),
    (c8_render_guard [] (some "no internet") none).1⟩

section PivotLemmas

theorem lookup_pivot_map {α : Type} (v : Row → α) (rows : List Row)
    (hnd : (rows.map (fun r => (r.date, r.location))).Nodup) (r : Row) (hr : r ∈ rows) :
    (rows.map (fun s => ((s.date, s.location), v s))).lookup (r.date, r.location) =
      some (v r) := by
  induction rows with
  | nil => simp at hr
  | cons r₀ rs ih =>
    simp only [List.map_cons, List.nodup_cons] at hnd
    rcases List.mem_cons.mp hr with he | hm
    · subst he
      simp [List.lookup]
    · have hkey : (r.date, r.location) ≠ (r₀.date, r₀.location) := by
        intro hcontra
        exact hnd.1 (hcontra ▸ List.mem_map.mpr ⟨r, hm, rfl⟩)
      have hbeq : ((r.date, r.location) == (r₀.date, r₀.location)) = false :=
        beq_eq_false_iff_ne.mpr hkey
      simp only [List.map_cons, List.lookup, hbeq]
      exact ih hnd.2 hm

end PivotLemmas

/-- Claim C10: the pivot of a table into (date, location) form raises the
duplicate-entries error exactly when some (date, location) pair occurs more
than once; on success each cell carries the unique metric value of that
location on that date. -/
theorem c10_pivot {α : Type} (v : Row → α) (rows : List Row) :
    (¬ (rows.map (fun r => (r.date, r.location))).Nodup →
      pivot v rows = .error "Index contains duplicate entries, cannot reshape") ∧
    (∀ t, pivot v rows = .ok t → ∀ r ∈ rows,
      t.lookup (r.date, r.location) = some (v r)) := by
  constructor
  · intro hdup
    rw [pivot, if_neg hdup]
  · intro t ht r hr
    rw [pivot] at ht
    split_ifs at ht with hnd
    cases ht
    exact lookup_pivot_map v rows hnd r hr

/-- Two Kenya rows sharing the same date: a duplicate (date, location) key. -/
def c10df : List Row :=
  [{ row0 with location := "Kenya", date := 1, total_cases := some 3 },
   { row0 with location := "Kenya", date := 1 }]

theorem c10_pivot_witness :
    pivot (fun r => r.total_cases) c10df =
        Except.error "Index contains duplicate entries, cannot reshape" ∧
      (c1df.map (fun s => ((s.date, s.location), s.total_cases))).lookup
          ((1 : Nat), "Kenya") = some none := by
  constructor
  · exact (c10_pivot (fun r => r.total_cases) c10df).1 (by decide)
  · have h := (c10_pivot (fun r => r.total_cases) c1df).2
      (c1df.map (fun s => ((s.date, s.location), s.total_cases)))
      (by rw [pivot, if_pos (by decide)])
      { row0 with location := "Kenya", date := 1 } (by decide)
    simpa using h
